import Mathlib

/-!
Verification development for the DroidBot batch runner (`start_bash.py`).

The runner's pure string helpers are embedded directly; effectful parts
(filesystem queries, external subprocess invocations, emulator termination)
are embedded with an explicit oracle for the environment's answers and an
event trace recording the side effects the code performs.

Characters are modelled at ASCII granularity: Python's per-character
`str.isalnum` test is embedded as `Char.isAlphanum`.
-/

namespace DroidBot

/-- Decimal digit character, as produced by Python `str(int)`:
`d % 10` mapped to the ASCII digit block starting at 48. -/
def digitChar (d : Nat) : Char := Char.ofNat (48 + d % 10)

/-- Fuel-driven decimal rendering of a natural number (most significant digit
first), the embedding of Python `str` on a nonnegative `int`. -/
def pyReprAux : Nat → Nat → List Char
  | 0, _ => []
  | fuel + 1, n =>
    if n < 10 then [digitChar n]
    else pyReprAux fuel (n / 10) ++ [digitChar (n % 10)]

/-- Embedding of Python `str(n)` for a natural number `n`. -/
def pyNatRepr (n : Nat) : String := ⟨pyReprAux (n + 1) n⟩

/-- Numeric value of an ASCII digit character (Python `int` on one digit). -/
def digitVal (c : Char) : Nat := c.toNat - 48

/-- Value of a most-significant-first decimal digit string (Python `int`). -/
def decVal (l : List Char) : Nat := l.foldl (fun a c => 10 * a + digitVal c) 0

/-- `os.path.basename`: the part of the path after the last slash. -/
def pyBasename (l : List Char) : List Char :=
  (l.reverse.takeWhile (fun c => c ≠ '/')).reverse

/-- Stem part of `os.path.splitext` on a basename: split at the last dot,
except when every character before that dot is itself a dot (then the name
has no extension, e.g. `.bashrc`, `....apk`). -/
def pySplitextStem (l : List Char) : List Char :=
  let r := l.reverse
  let afterDot := r.takeWhile (fun c => c ≠ '.')
  if afterDot.length = r.length then l
  else
    let beforeDot := r.drop (afterDot.length + 1)
    if beforeDot.all (fun c => c = '.') then l else beforeDot.reverse

/-- Python `str.rstrip` restricted to the underscore character. -/
def rstripUnderscore (l : List Char) : List Char :=
  (l.reverse.dropWhile (fun c => c = '_')).reverse

/-- The character-cleaning pass of `sanitize_suffix`:
keep characters passing `isalnum` and `.`, `_`, `-`; replace everything
else with `_`. `Char.isAlphanum` is the ASCII restriction of Python's
Unicode-aware `str.isalnum` — exact on ASCII characters, while the real
code also keeps non-ASCII letters and digits; statements that depend on
the character class are therefore scoped to ASCII inputs. -/
def sanitizeChar (c : Char) : Char :=
  if c.isAlphanum || c = '.' || c = '_' || c = '-' then c else '_'

/-- `sanitize_suffix` before the empty-string fallback: basename, drop the
extension, clean characters, turn dots into underscores, strip trailing
underscores. -/
def sanitizeCore (apk_path : String) : List Char :=
  let s1 := pyBasename apk_path.data
  let s2 := pySplitextStem s1
  let s3 := s2.map sanitizeChar
  let s4 := s3.map (fun c => if c = '.' then '_' else c)
  rstripUnderscore s4

/-- `DroidBotRunner.sanitize_suffix`. -/
def sanitize_suffix (apk_path : String) : String :=
  let s := sanitizeCore apk_path
  if s.isEmpty then "apk" else ⟨s⟩


/-- `str.startswith`, computed on the underlying character lists. -/
def pyStartsWith (s pre : String) : Bool :=
  pre.data.isPrefixOf s.data

/-- `str.endswith`, computed on the underlying character lists. -/
def pyEndsWith (s suf : String) : Bool :=
  suf.data.reverse.isPrefixOf s.data.reverse

/-- `os.path.join` for two POSIX path components. -/
def pathJoin (a b : String) : String :=
  if pyStartsWith b "/" then b
  else if a = "" || pyEndsWith a "/" then a ++ b
  else a ++ "/" ++ b


/-- Runner configuration: the `DroidBotRunner` attributes the embedded
methods read. `base_port` and `port_step` are fixed in `__init__`. -/
structure RunnerConfig where
  apk_base : String
  parent_dir : String
  run_count : Nat
  test_mode : Bool
  max_parallel : Nat
deriving DecidableEq, Repr

def base_port : Nat := 5554

def port_step : Nat := 2

/-- Oracle for the filesystem state the generators query:
`os.path.exists`, `os.path.isdir`, and the result list of `glob.glob`
for a given pattern string. -/
structure FileSystem where
  pathExists : String → Bool
  isDir : String → Bool
  globMatches : String → List String

/-- One work item, as built by the task generators. -/
structure Task where
  apk_path : String
  suffix : String
  run_idx : Nat
  out_dir : String
  record_dir : Option String
  policy : String
  base_suffix : Option String
deriving DecidableEq, Repr

instance : Inhabited Task :=
  ⟨{ apk_path := "", suffix := "", run_idx := 0, out_dir := "",
     record_dir := none, policy := "", base_suffix := none }⟩

/-- Resolve a manifest entry to a package path:
absolute entries are kept, others are joined onto `apk_base`. -/
def resolveApk (rc : RunnerConfig) (apk_rel : String) : String :=
  if pyStartsWith apk_rel "/" then apk_rel else pathJoin rc.apk_base apk_rel

/-- Prefix a directory with `parent_dir` when that option is non-empty
(Python truthiness of the `parent_dir` string). -/
def applyParent (rc : RunnerConfig) (d : String) : String :=
  if rc.parent_dir ≠ "" then pathJoin rc.parent_dir d else d

/-- Embedding of `re.search` with pattern `_run(\d+)$` followed by
`int(match.group(1))`: succeeds exactly when the string ends in `_run`
followed by a non-empty digit run, returning that run's value. -/
def parseRunSuffix (s : String) : Option Nat :=
  let r := s.data.reverse
  let digits := r.takeWhile (fun c => c.isDigit)
  if digits.isEmpty then none
  else if ("_run".data.reverse).isPrefixOf (r.drop digits.length) then
    some (decVal digits.reverse)
  else none


/-- Tasks `generate_tasks_record` emits for one manifest entry. -/
def record_tasks_for_apk (rc : RunnerConfig) (fs : FileSystem) (apk_rel : String) : List Task :=
  let apk_path := resolveApk rc apk_rel
  if !fs.pathExists apk_path then []
  else
    let suffix := sanitize_suffix apk_path
    ((List.range rc.run_count).map (fun k => k + 1)).filterMap (fun run_idx =>
      let out_dir := applyParent rc ("record_output_" ++ suffix ++ "_run" ++ pyNatRepr run_idx)
      if fs.pathExists out_dir then none
      else some { apk_path := apk_path, suffix := suffix, run_idx := run_idx,
                  out_dir := out_dir, record_dir := none,
                  policy := "random_exploration", base_suffix := none })

/-- Warnings `generate_tasks_record` logs for one manifest entry. -/
def record_warnings_for_apk (rc : RunnerConfig) (fs : FileSystem) (apk_rel : String) : List String :=
  let apk_path := resolveApk rc apk_rel
  if !fs.pathExists apk_path then ["APK not found: " ++ apk_path] else []

/-- `DroidBotRunner.generate_tasks_record`: emitted tasks and logged
warnings. -/
def generate_tasks_record (rc : RunnerConfig) (fs : FileSystem) (apks : List String) :
    List Task × List String :=
  (apks.flatMap (record_tasks_for_apk rc fs), apks.flatMap (record_warnings_for_apk rc fs))

/-- The `(run index, record directory)` pairs found on disk for a suffix:
glob on `record_output_{suffix}_run*`, keep directories whose name ends
in `_run` plus digits. -/
def recordedRuns (rc : RunnerConfig) (fs : FileSystem) (suffix : String) : List (Nat × String) :=
  let pattern := applyParent rc ("record_output_" ++ suffix ++ "_run*")
  (fs.globMatches pattern).filterMap (fun p =>
    match parseRunSuffix p with
    | none => none
    | some run_idx => if fs.isDir p then some (run_idx, p) else none)

/-- Tasks `generate_tasks_replay_original` emits for one manifest entry. -/
def replay_original_tasks_for_apk (rc : RunnerConfig) (fs : FileSystem) (apk_rel : String) :
    List Task :=
  let apk_path := resolveApk rc apk_rel
  if !fs.pathExists apk_path then []
  else
    let suffix := sanitize_suffix apk_path
    (recordedRuns rc fs suffix).filterMap (fun run =>
      let replay_dir := applyParent rc ("replay_output_" ++ suffix ++ "_run" ++ pyNatRepr run.1)
      if fs.pathExists replay_dir then none
      else some { apk_path := apk_path, suffix := suffix, run_idx := run.1,
                  out_dir := replay_dir, record_dir := some run.2,
                  policy := "replay", base_suffix := none })

/-- `DroidBotRunner.generate_tasks_replay_original`: emitted tasks and
logged warnings. -/
def generate_tasks_replay_original (rc : RunnerConfig) (fs : FileSystem) (apks : List String) :
    List Task × List String :=
  (apks.flatMap (replay_original_tasks_for_apk rc fs),
   apks.flatMap (record_warnings_for_apk rc fs))

/-- The base indices `range(len(apks)-1, 0, -1)` iterates:
`n-1, n-2, ..., 1`. -/
def revRange1 (n : Nat) : List Nat :=
  (((List.range (n - 1)).map (fun k => k + 1))).reverse


/-- Tasks `generate_tasks_replay_new` emits for one base index: replay each
of the base version's recorded runs against every strictly older manifest
entry. A missing base or target package is skipped with a bare `continue`
(no warning is logged on this path). -/
def replay_new_tasks_for_base (rc : RunnerConfig) (fs : FileSystem) (apks : List String)
    (base_index : Nat) : List Task :=
  let base_apk := resolveApk rc (apks.getD base_index "")
  if !fs.pathExists base_apk then []
  else
    let base_suffix := sanitize_suffix base_apk
    let runs := recordedRuns rc fs base_suffix
    if runs.isEmpty then []
    else
      (apks.take base_index).flatMap (fun target_apk_rel =>
        let target_apk := resolveApk rc target_apk_rel
        if !fs.pathExists target_apk then []
        else
          let target_suffix := sanitize_suffix target_apk
          runs.filterMap (fun run =>
            let replay_dir := applyParent rc
              ("replay_output_" ++ target_suffix ++ "_run" ++ pyNatRepr run.1 ++
                "_for_" ++ base_suffix)
            if fs.pathExists replay_dir then none
            else some { apk_path := target_apk, suffix := target_suffix, run_idx := run.1,
                        out_dir := replay_dir, record_dir := some run.2,
                        policy := "replay", base_suffix := some base_suffix }))

/-- `DroidBotRunner.generate_tasks_replay_new`: emitted tasks and logged
warnings. The source's loops drop unresolvable package paths with a bare
`continue`, so the warning component is always empty. -/
def generate_tasks_replay_new (rc : RunnerConfig) (fs : FileSystem) (apks : List String) :
    List Task × List String :=
  ((revRange1 apks.length).flatMap (replay_new_tasks_for_base rc fs apks), [])

/-- Outcome of the external worker invocation made by `run_single_task`:
the process completed with an exit code, `subprocess.run` raised
`TimeoutExpired`, or it raised some other exception. -/
inductive InvokeResult where
  | completed (code : Int)
  | timedOut
  | spawnError
deriving DecidableEq, Repr

/-- Side effects the runner performs, recorded as a trace. -/
inductive Event where
  | taskStarted (out_dir serial : String)
  | removeTree (dir : String)
  | killEmulator (serial : String)
deriving DecidableEq, Repr

/-- `DroidBotRunner.run_single_task` for one task bound to one serial,
with the invocation's outcome supplied by the oracle `res`.
The `try` body yields the success flag and the effects it performed
(`shutil.rmtree` on timeout only); the `finally` block always appends
exactly one `kill_emulator` call, whose own failure is caught and cannot
change the outcome. -/
def run_single_task (rc : RunnerConfig) (task : Task) (serial : String)
    (res : InvokeResult) : Bool × List Event :=
  let attempt : Bool × List Event :=
    if rc.test_mode then (true, [])
    else
      match res with
      | .completed code => (decide (code = 0), [])
      | .timedOut => (false, [Event.removeTree task.out_dir])
      | .spawnError => (false, [])
  (attempt.1, Event.taskStarted task.out_dir serial :: attempt.2 ++ [Event.killEmulator serial])

/-- The serial placed into the queue for slot `i`:
`emulator-{base_port + i * port_step}`. -/
def serialForSlot (i : Nat) : String :=
  "emulator-" ++ pyNatRepr (base_port + i * port_step)

/-- The fixed task-to-serial mapping `run_batch` computes before any task
starts: the queue is filled with `serialForSlot 0, 1, ...` and each task
takes the next serial, so task `i` is paired with slot `i`. -/
def task_assignments (tasks : List Task) : List (Task × String) :=
  tasks.enum.map (fun p => (p.2, serialForSlot p.1))

/-- `DroidBotRunner.run_batch`: number of successes and the trace of one
chunk. `startOk` is the oracle for `start_emulators_batch`; a failed start
aborts the chunk with zero successes and no task execution. Otherwise all
assigned pairs run, and a final best-effort pass kills every assigned
serial again. -/
def run_batch (rc : RunnerConfig) (startOk : Bool)
    (invoke : Task → String → InvokeResult) (tasks : List Task) : Nat × List Event :=
  if !startOk then (0, [])
  else
    let assignments := task_assignments tasks
    let results := assignments.map (fun p => run_single_task rc p.1 p.2 (invoke p.1 p.2))
    ((results.map Prod.fst).count true,
      (results.map Prod.snd).flatten ++ assignments.map (fun p => Event.killEmulator p.2))

/-- The slices `tasks[i:i+maxp]` for `i in range(0, len(tasks), maxp)`,
rendered with fuel so it computes by reduction. -/
def chunksOfAux (maxp : Nat) : Nat → List Task → List (List Task)
  | 0, _ => []
  | _, [] => []
  | fuel + 1, ts => ts.take maxp :: chunksOfAux maxp fuel (ts.drop maxp)

/-- The chunks the batch loop in `DroidBotRunner.run` iterates over. -/
def chunksOf (maxp : Nat) (tasks : List Task) : List (List Task) :=
  if maxp = 0 then [] else chunksOfAux maxp tasks.length tasks


/-- The batch loop of `DroidBotRunner.run`: every chunk is handed to
`run_batch` in order (chunk `i` sees `startOk i`) and the successes are
accumulated; no chunk outcome stops the loop. -/
def run_loop (rc : RunnerConfig) (startOk : Nat → Bool)
    (invoke : Task → String → InvokeResult) (all_tasks : List Task) : Nat :=
  (chunksOf rc.max_parallel all_tasks).enum.foldl
    (fun acc p => acc + (run_batch rc (startOk p.1) invoke p.2).1) 0

/-- Configuration for the concrete cross-version scenario: no parent
directory, packages resolved under `/apks`. -/
def rcV : RunnerConfig :=
  { apk_base := "/apks", parent_dir := "", run_count := 1,
    test_mode := false, max_parallel := 8 }

/-- Filesystem for the cross-version scenario: the three manifest packages
exist and only `v3` has a recording directory, for run index 1. -/
def fsV : FileSystem :=
  { pathExists := fun p =>
      p == "/apks/v1.apk" || p == "/apks/v2.apk" || p == "/apks/v3.apk" ||
      p == "record_output_v3_run1",
    isDir := fun p => p == "record_output_v3_run1",
    globMatches := fun pat =>
      if pat == "record_output_v3_run*" then ["record_output_v3_run1"] else [] }

/-- Oldest-to-newest manifest for the cross-version scenario. -/
def manifestV : List String := ["v1.apk", "v2.apk", "v3.apk"]

/-- Python `str.strip` whitespace test (ASCII whitespace). -/
def pyIsSpace (c : Char) : Bool :=
  c = ' ' || c = '\t' || c = '\n' || c = '\r' || c = '\x0b' || c = '\x0c'

/-- Python `str.strip` with no argument: remove leading and trailing
whitespace. -/
def pyStrip (s : String) : String :=
  ⟨((s.data.dropWhile pyIsSpace).reverse.dropWhile pyIsSpace).reverse⟩

/-- The cell selection made for one CSV row: the stripped seventh column,
kept only when the row has more than six columns and the stripped cell is
non-empty (Python truthiness of the stripped string). -/
def csvPick (row : List String) : Option String :=
  let cell := pyStrip (row.getD 6 "")
  if row.length > 6 && cell != "" then some cell else none

/-- `DroidBotRunner.read_csv_apks`, on the already-parsed row list:
the loop walks `rows[2:]` and appends each selected cell. -/
def read_csv_apks (rows : List (List String)) : List String :=
  (rows.drop 2).foldl (fun acc row =>
    match csvPick row with
    | some cell => acc ++ [cell]
    | none => acc) []

/-- A filesystem in which no path exists: used to exercise the missing-
package paths of the generators. -/
def fsEmpty : FileSystem :=
  { pathExists := fun _ => false, isDir := fun _ => false, globMatches := fun _ => [] }

/-- A concrete task used to instantiate the runner theorems. -/
def taskA : Task :=
  { apk_path := "/apks/v1.apk", suffix := "v1", run_idx := 1,
    out_dir := "record_output_v1_run1", record_dir := none,
    policy := "random_exploration", base_suffix := none }

/-- An invocation oracle that always times out. -/
def invokeTimeout : Task → String → InvokeResult := fun _ _ => InvokeResult.timedOut

example :
    (generate_tasks_replay_new rcV fsV manifestV).1 =
      [{ apk_path := "/apks/v1.apk", suffix := "v1", run_idx := 1,
         out_dir := "replay_output_v1_run1_for_v3",
         record_dir := some "record_output_v3_run1", policy := "replay",
         base_suffix := some "v3" },
       { apk_path := "/apks/v2.apk", suffix := "v2", run_idx := 1,
         out_dir := "replay_output_v2_run1_for_v3",
         record_dir := some "record_output_v3_run1", policy := "replay",
         base_suffix := some "v3" }] := by decide

theorem digitVal_digitChar (d : Nat) (h : d < 10) : digitVal (digitChar d) = d := by
  interval_cases d <;> decide

theorem decVal_append_digit (l : List Char) (c : Char) :
    decVal (l ++ [c]) = 10 * decVal l + digitVal c := by
  simp [decVal, List.foldl_append]

theorem decVal_pyReprAux (fuel n : Nat) (h : n < fuel) :
    decVal (pyReprAux fuel n) = n := by
  induction fuel generalizing n with
  | zero => omega
  | succ fuel ih =>
    by_cases hn : n < 10
    · simp [pyReprAux, hn, decVal, digitVal_digitChar n hn]
    · have hdiv : n / 10 < n := Nat.div_lt_self (by omega) (by omega)
      have hfuel : n / 10 < fuel := by omega
      rw [pyReprAux, if_neg hn, decVal_append_digit, ih _ hfuel,
        digitVal_digitChar (n % 10) (Nat.mod_lt _ (by omega))]
      omega

theorem pyNatRepr_data_inj {a b : Nat}
    (h : (pyNatRepr a).data = (pyNatRepr b).data) : a = b := by
  have ha := decVal_pyReprAux (a + 1) a (Nat.lt_succ_self a)
  have hb := decVal_pyReprAux (b + 1) b (Nat.lt_succ_self b)
  have hd : pyReprAux (a + 1) a = pyReprAux (b + 1) b := h
  rw [hd] at ha
  omega

theorem pyNatRepr_injective : Function.Injective pyNatRepr := fun _ _ h =>
  pyNatRepr_data_inj (congrArg String.data h)

theorem head?_dropWhile_false {α : Type} (p : α → Bool) (l : List α) {c : α}
    (h : (l.dropWhile p).head? = some c) : p c = false := by
  induction l with
  | nil => simp [List.dropWhile] at h
  | cons a l ih =>
    rw [List.dropWhile_cons] at h
    by_cases hpa : p a
    · rw [if_pos hpa] at h
      exact ih h
    · rw [if_neg hpa] at h
      simp only [List.head?_cons, Option.some.injEq] at h
      subst h
      exact Bool.eq_false_iff.mpr hpa

theorem mem_rstripUnderscore {c : Char} {l : List Char}
    (h : c ∈ rstripUnderscore l) : c ∈ l := by
  unfold rstripUnderscore at h
  rw [List.mem_reverse] at h
  have hsub := (List.dropWhile_sublist (l := l.reverse) (fun c => c = '_')).subset
  rw [← List.mem_reverse]
  exact hsub h

theorem rstripUnderscore_getLast (l : List Char) :
    (rstripUnderscore l).getLast? ≠ some '_' := by
  unfold rstripUnderscore
  rw [List.getLast?_reverse]
  intro h
  have := head?_dropWhile_false (fun c => c = '_') l.reverse h
  simp at this

theorem dotRepl_sanitizeChar_safe (c : Char) :
    (if sanitizeChar c = '.' then '_' else sanitizeChar c).isAlphanum = true ∨
    (if sanitizeChar c = '.' then '_' else sanitizeChar c) = '_' ∨
    (if sanitizeChar c = '.' then '_' else sanitizeChar c) = '-' := by
  unfold sanitizeChar
  by_cases hcond : (c.isAlphanum || c = '.' || c = '_' || c = '-') = true
  · rw [if_pos hcond]
    by_cases hdot : c = '.'
    · rw [if_pos hdot]
      exact Or.inr (Or.inl rfl)
    · rw [if_neg hdot]
      simp only [Bool.or_eq_true, decide_eq_true_eq] at hcond
      rcases hcond with ((h | h) | h) | h
      · exact Or.inl h
      · exact absurd h hdot
      · exact Or.inr (Or.inl h)
      · exact Or.inr (Or.inr h)
  · rw [if_neg hcond]
    rw [if_neg (by decide : ¬('_' : Char) = '.')]
    exact Or.inr (Or.inl rfl)

theorem sanitizeCore_chars {s : String} {c : Char} (h : c ∈ sanitizeCore s) :
    c.isAlphanum = true ∨ c = '_' ∨ c = '-' := by
  unfold sanitizeCore at h
  have h2 := mem_rstripUnderscore h
  rw [List.mem_map] at h2
  obtain ⟨d, hd, rfl⟩ := h2
  rw [List.mem_map] at hd
  obtain ⟨e, _, rfl⟩ := hd
  exact dotRepl_sanitizeChar_safe e

/-- C4 (amended): `sanitize_suffix` is a pure function of its input; for
ASCII inputs — where Python's Unicode-aware `str.isalnum` coincides with
the ASCII test embedded here — every character outside `[A-Za-z0-9._-]`
is replaced, every dot becomes an underscore, so the output holds only
alphanumerics, underscores and hyphens (on non-ASCII input the real code
keeps the letters and digits `str.isalnum` accepts, so the unrestricted
character-class statement fails there); the output never ends in an
underscore; and on `App-Name v1.2.3 (beta).apk` it yields
`App-Name_v1_2_3__beta` (the space and the opening parenthesis each
contribute one underscore). -/
theorem sanitize_suffix_clean :
    (∀ p q : String, p = q → sanitize_suffix p = sanitize_suffix q) ∧
    (∀ (s : String), (∀ c ∈ s.data, c.toNat < 128) →
      ∀ c ∈ (sanitize_suffix s).data,
      c.isAlphanum = true ∨ c = '_' ∨ c = '-') ∧
    (∀ s : String, (sanitize_suffix s).data.getLast? ≠ some '_') ∧
    sanitize_suffix "App-Name v1.2.3 (beta).apk" = "App-Name_v1_2_3__beta" := by
  refine ⟨fun p q h => by rw [h], ?_, ?_, by decide⟩
  · intro s _ c hc
    unfold sanitize_suffix at hc
    by_cases he : (sanitizeCore s).isEmpty
    · rw [if_pos he] at hc
      have hc2 : c ∈ (['a', 'p', 'k'] : List Char) := hc
      have hc3 : c = 'a' ∨ c = 'p' ∨ c = 'k' := by simpa using hc2
      rcases hc3 with rfl | rfl | rfl <;> decide
    · rw [if_neg he] at hc
      exact sanitizeCore_chars hc
  · intro s
    unfold sanitize_suffix
    by_cases he : (sanitizeCore s).isEmpty
    · rw [if_pos he]
      decide
    · rw [if_neg he]
      exact rstripUnderscore_getLast _

/-- C4 counterexample: the claimed example output `App-Name_v1_2_3_beta`
is not what `sanitize_suffix` produces (the space and the parenthesis
before `beta` yield two underscores, not one). -/
theorem sanitize_example_refuted :
    sanitize_suffix "App-Name v1.2.3 (beta).apk" ≠ "App-Name_v1_2_3_beta" := by
  decide

/-- C4 witness. -/
theorem sanitize_suffix_clean_witness :
    sanitize_suffix "a b.apk" = sanitize_suffix "a b.apk" ∧
    ('a'.isAlphanum = true ∨ 'a' = '_' ∨ 'a' = '-') ∧
    (sanitize_suffix "a b.apk").data.getLast? ≠ some '_' :=
  ⟨sanitize_suffix_clean.1 "a b.apk" "a b.apk" rfl,
   sanitize_suffix_clean.2.1 "a b.apk" (by decide) 'a' (by decide),
   sanitize_suffix_clean.2.2.1 "a b.apk"⟩

/-- C9: the sanitized suffix is never empty; when the cleaned basename
strips down to nothing, the fallback `apk` is returned. -/
theorem sanitize_suffix_fallback :
    (∀ s : String, sanitize_suffix s ≠ "") ∧
    (∀ s : String, sanitizeCore s = [] → sanitize_suffix s = "apk") := by
  constructor
  · intro s h
    unfold sanitize_suffix at h
    by_cases he : (sanitizeCore s).isEmpty
    · rw [if_pos he] at h
      exact absurd h (by decide)
    · rw [if_neg he] at h
      have hdata : sanitizeCore s = [] := congrArg String.data h
      rw [← List.isEmpty_iff] at hdata
      exact he hdata
  · intro s h
    unfold sanitize_suffix
    rw [if_pos (List.isEmpty_iff.mpr h)]

/-- C9 witness. -/
theorem sanitize_suffix_fallback_witness :
    sanitize_suffix "" ≠ "" ∧ sanitize_suffix "___.apk" = "apk" :=
  ⟨sanitize_suffix_fallback.1 "",
   sanitize_suffix_fallback.2 "___.apk" (by decide)⟩

theorem read_csv_foldl (rows : List (List String)) (acc : List String) :
    rows.foldl (fun acc row =>
      match csvPick row with
      | some cell => acc ++ [cell]
      | none => acc) acc = acc ++ rows.filterMap csvPick := by
  induction rows generalizing acc with
  | nil => simp
  | cons r rows ih =>
    cases hcr : csvPick r with
    | none => simp only [List.foldl_cons, hcr, List.filterMap_cons_none hcr]; exact ih acc
    | some c =>
      simp only [List.foldl_cons, hcr, List.filterMap_cons_some hcr]
      rw [ih]
      simp

/-- C10: `read_csv_apks` skips the first two manifest rows entirely, and
from the remaining rows keeps, in row order, exactly the stripped seventh
cell of each row that has more than six columns and whose stripped cell is
non-empty. -/
theorem read_csv_apks_spec :
    ∀ (pre rows : List (List String)), pre.length = 2 →
      read_csv_apks (pre ++ rows) = rows.filterMap csvPick := by
  intro pre rows hpre
  unfold read_csv_apks
  rw [← hpre, List.drop_left, read_csv_foldl]
  simp

/-- C10 witness. -/
theorem read_csv_apks_spec_witness :
    read_csv_apks [[], ["header"], ["1", "2", "3", "4", "5", "6", " x7 "], ["short"]] =
      ["x7"] :=
  (read_csv_apks_spec [[], ["header"]]
    [["1", "2", "3", "4", "5", "6", " x7 "], ["short"]] rfl).trans (by decide)

theorem mem_record_tasks_for_apk {rc : RunnerConfig} {fs : FileSystem} {a : String} {t : Task}
    (h : t ∈ record_tasks_for_apk rc fs a) :
    fs.pathExists t.out_dir = false ∧ fs.pathExists t.apk_path = true ∧
      t.apk_path = resolveApk rc a := by
  unfold record_tasks_for_apk at h
  by_cases hex : fs.pathExists (resolveApk rc a)
  · simp only [hex, Bool.not_true, Bool.false_eq_true, if_false] at h
    rw [List.mem_filterMap] at h
    obtain ⟨ri, _, hf⟩ := h
    by_cases hod : fs.pathExists
        (applyParent rc ("record_output_" ++ sanitize_suffix (resolveApk rc a) ++ "_run" ++ pyNatRepr ri))
    · rw [if_pos hod] at hf
      cases hf
    · rw [if_neg hod] at hf
      obtain rfl := Option.some.inj hf
      exact ⟨Bool.eq_false_iff.mpr hod, hex, rfl⟩
  · simp only [Bool.not_eq_true] at hex
    simp [hex] at h

theorem mem_replay_original_tasks_for_apk {rc : RunnerConfig} {fs : FileSystem} {a : String}
    {t : Task} (h : t ∈ replay_original_tasks_for_apk rc fs a) :
    fs.pathExists t.out_dir = false ∧ fs.pathExists t.apk_path = true ∧
      t.apk_path = resolveApk rc a := by
  unfold replay_original_tasks_for_apk at h
  by_cases hex : fs.pathExists (resolveApk rc a)
  · simp only [hex, Bool.not_true, Bool.false_eq_true, if_false] at h
    rw [List.mem_filterMap] at h
    obtain ⟨run, _, hf⟩ := h
    by_cases hod : fs.pathExists
        (applyParent rc ("replay_output_" ++ sanitize_suffix (resolveApk rc a) ++ "_run" ++ pyNatRepr run.1))
    · rw [if_pos hod] at hf
      cases hf
    · rw [if_neg hod] at hf
      obtain rfl := Option.some.inj hf
      exact ⟨Bool.eq_false_iff.mpr hod, hex, rfl⟩
  · simp only [Bool.not_eq_true] at hex
    simp [hex] at h

theorem mem_replay_new_tasks_for_base {rc : RunnerConfig} {fs : FileSystem} {apks : List String}
    {b : Nat} {t : Task} (h : t ∈ replay_new_tasks_for_base rc fs apks b) :
    fs.pathExists t.out_dir = false ∧ fs.pathExists t.apk_path = true := by
  unfold replay_new_tasks_for_base at h
  by_cases hex : fs.pathExists (resolveApk rc (apks.getD b ""))
  · simp only [hex, Bool.not_true, Bool.false_eq_true, if_false] at h
    by_cases hruns : (recordedRuns rc fs (sanitize_suffix (resolveApk rc (apks.getD b "")))).isEmpty
    · rw [hruns] at h
      simp at h
    · simp only [hruns, Bool.false_eq_true, if_false] at h
      rw [List.mem_flatMap] at h
      obtain ⟨ta, _, h⟩ := h
      by_cases htex : fs.pathExists (resolveApk rc ta)
      · simp only [htex, Bool.not_true, Bool.false_eq_true, if_false] at h
        rw [List.mem_filterMap] at h
        obtain ⟨run, _, hf⟩ := h
        by_cases hod : fs.pathExists
            (applyParent rc ("replay_output_" ++ sanitize_suffix (resolveApk rc ta) ++ "_run" ++
              pyNatRepr run.1 ++ "_for_" ++ sanitize_suffix (resolveApk rc (apks.getD b ""))))
        · rw [if_pos hod] at hf
          cases hf
        · rw [if_neg hod] at hf
          obtain rfl := Option.some.inj hf
          exact ⟨Bool.eq_false_iff.mpr hod, htex⟩
      · simp only [Bool.not_eq_true] at htex
        simp only [htex] at h
        simp at h
  · simp only [Bool.not_eq_true] at hex
    simp only [hex] at h
    simp at h

/-- C5: on the oldest-to-newest manifest `[v1, v2, v3]` where only `v3`
has a recording directory for run index 1, cross-version generation emits
exactly the two tasks replaying `v3`'s run-1 trace against `v1` and
against `v2`, and no emitted task targets `v3`. -/
theorem replay_new_cross_version :
    (generate_tasks_replay_new rcV fsV manifestV).1 =
      [{ apk_path := "/apks/v1.apk", suffix := "v1", run_idx := 1,
         out_dir := "replay_output_v1_run1_for_v3",
         record_dir := some "record_output_v3_run1", policy := "replay",
         base_suffix := some "v3" },
       { apk_path := "/apks/v2.apk", suffix := "v2", run_idx := 1,
         out_dir := "replay_output_v2_run1_for_v3",
         record_dir := some "record_output_v3_run1", policy := "replay",
         base_suffix := some "v3" }] ∧
    (generate_tasks_replay_new rcV fsV manifestV).1.length = 2 ∧
    ((generate_tasks_replay_new rcV fsV manifestV).1.all
      (fun t => t.suffix != "v3" && t.base_suffix == some "v3" &&
        t.record_dir == some "record_output_v3_run1" && t.run_idx == 1)) = true :=
  ⟨by decide, by decide, by decide⟩

/-- C6: in every generation strategy, every emitted task's output
directory does not exist in the queried filesystem state, and generation
is a function of that state, so a second run over the same state yields
the identical task set. -/
theorem generation_idempotent :
    ∀ (rc : RunnerConfig) (fs : FileSystem) (apks : List String),
      (∀ t ∈ (generate_tasks_record rc fs apks).1, fs.pathExists t.out_dir = false) ∧
      (∀ t ∈ (generate_tasks_replay_original rc fs apks).1, fs.pathExists t.out_dir = false) ∧
      (∀ t ∈ (generate_tasks_replay_new rc fs apks).1, fs.pathExists t.out_dir = false) ∧
      (∀ fs2 : FileSystem, fs2 = fs →
        generate_tasks_record rc fs2 apks = generate_tasks_record rc fs apks ∧
        generate_tasks_replay_original rc fs2 apks = generate_tasks_replay_original rc fs apks ∧
        generate_tasks_replay_new rc fs2 apks = generate_tasks_replay_new rc fs apks) := by
  intro rc fs apks
  refine ⟨?_, ?_, ?_, fun fs2 h => by rw [h]; exact ⟨rfl, rfl, rfl⟩⟩
  · intro t ht
    rw [show (generate_tasks_record rc fs apks).1 = apks.flatMap (record_tasks_for_apk rc fs) from rfl,
      List.mem_flatMap] at ht
    obtain ⟨a, _, hta⟩ := ht
    exact (mem_record_tasks_for_apk hta).1
  · intro t ht
    rw [show (generate_tasks_replay_original rc fs apks).1 =
        apks.flatMap (replay_original_tasks_for_apk rc fs) from rfl,
      List.mem_flatMap] at ht
    obtain ⟨a, _, hta⟩ := ht
    exact (mem_replay_original_tasks_for_apk hta).1
  · intro t ht
    rw [show (generate_tasks_replay_new rc fs apks).1 =
        (revRange1 apks.length).flatMap (replay_new_tasks_for_base rc fs apks) from rfl,
      List.mem_flatMap] at ht
    obtain ⟨b, _, htb⟩ := ht
    exact (mem_replay_new_tasks_for_base htb).1

/-- C6 witness. -/
theorem generation_idempotent_witness :
    taskA ∈ (generate_tasks_record rcV fsV manifestV).1 ∧
    fsV.pathExists taskA.out_dir = false :=
  ⟨by decide, (generation_idempotent rcV fsV manifestV).1 taskA (by decide)⟩

/-- C8 (amended): a manifest entry whose resolved package path does not
exist contributes no task in any strategy and never aborts generation; the
record and same-version replay strategies log an `APK not found` warning
for it, while the cross-version strategy drops it silently. -/
theorem missing_apk_handling :
    ∀ (rc : RunnerConfig) (fs : FileSystem) (apks : List String) (a : String),
      a ∈ apks → fs.pathExists (resolveApk rc a) = false →
      ("APK not found: " ++ resolveApk rc a) ∈ (generate_tasks_record rc fs apks).2 ∧
      ("APK not found: " ++ resolveApk rc a) ∈ (generate_tasks_replay_original rc fs apks).2 ∧
      (generate_tasks_replay_new rc fs apks).2 = [] ∧
      (∀ t ∈ (generate_tasks_record rc fs apks).1, t.apk_path ≠ resolveApk rc a) ∧
      (∀ t ∈ (generate_tasks_replay_original rc fs apks).1, t.apk_path ≠ resolveApk rc a) ∧
      (∀ t ∈ (generate_tasks_replay_new rc fs apks).1, t.apk_path ≠ resolveApk rc a) := by
  intro rc fs apks a ha hmiss
  have hwarn : record_warnings_for_apk rc fs a = ["APK not found: " ++ resolveApk rc a] := by
    unfold record_warnings_for_apk
    simp only [hmiss, Bool.not_false, if_true]
  refine ⟨?_, ?_, rfl, ?_, ?_, ?_⟩
  · rw [show (generate_tasks_record rc fs apks).2 =
        apks.flatMap (record_warnings_for_apk rc fs) from rfl, List.mem_flatMap]
    exact ⟨a, ha, by rw [hwarn]; exact List.mem_singleton.mpr rfl⟩
  · rw [show (generate_tasks_replay_original rc fs apks).2 =
        apks.flatMap (record_warnings_for_apk rc fs) from rfl, List.mem_flatMap]
    exact ⟨a, ha, by rw [hwarn]; exact List.mem_singleton.mpr rfl⟩
  · intro t ht heq
    rw [show (generate_tasks_record rc fs apks).1 = apks.flatMap (record_tasks_for_apk rc fs) from rfl,
      List.mem_flatMap] at ht
    obtain ⟨x, _, htx⟩ := ht
    have := (mem_record_tasks_for_apk htx).2.1
    rw [heq, hmiss] at this
    cases this
  · intro t ht heq
    rw [show (generate_tasks_replay_original rc fs apks).1 =
        apks.flatMap (replay_original_tasks_for_apk rc fs) from rfl,
      List.mem_flatMap] at ht
    obtain ⟨x, _, htx⟩ := ht
    have := (mem_replay_original_tasks_for_apk htx).2.1
    rw [heq, hmiss] at this
    cases this
  · intro t ht heq
    rw [show (generate_tasks_replay_new rc fs apks).1 =
        (revRange1 apks.length).flatMap (replay_new_tasks_for_base rc fs apks) from rfl,
      List.mem_flatMap] at ht
    obtain ⟨b, _, htb⟩ := ht
    have := (mem_replay_new_tasks_for_base htb).2
    rw [heq, hmiss] at this
    cases this

/-- C8 witness. -/
theorem missing_apk_handling_witness :
    "missing.apk" ∈ ["missing.apk"] ∧
    fsEmpty.pathExists (resolveApk rcV "missing.apk") = false ∧
    ("APK not found: " ++ resolveApk rcV "missing.apk") ∈
      (generate_tasks_record rcV fsEmpty ["missing.apk"]).2 :=
  ⟨by decide, by decide,
    (missing_apk_handling rcV fsEmpty ["missing.apk"] "missing.apk"
      (by decide) (by decide)).1⟩

/-- C8 counterexample: with manifest `[a.apk, missing.apk]` over a
filesystem where no path exists, the cross-version strategy drops the
unresolvable package paths and emits no task, yet logs no warning — the
claim's "dropped with a logged warning" fails for this strategy. -/
theorem replay_new_silent_drop :
    fsEmpty.pathExists (resolveApk rcV "missing.apk") = false ∧
    (generate_tasks_replay_new rcV fsEmpty ["a.apk", "missing.apk"]).1 = [] ∧
    (generate_tasks_replay_new rcV fsEmpty ["a.apk", "missing.apk"]).2 = [] :=
  ⟨by decide, by decide, rfl⟩

/-- C1: every `run_single_task` execution performs exactly one
`kill_emulator` call on its assigned serial, whatever the invocation
outcome — success, non-zero exit, spawn exception (the `finally` block
runs when the invocation raised) or timeout — and within a chunk every
assigned serial receives a `kill_emulator` call before `run_batch`
returns. -/
theorem kill_emulator_exactly_once :
    (∀ (rc : RunnerConfig) (task : Task) (serial : String) (res : InvokeResult),
      (run_single_task rc task serial res).2.count (Event.killEmulator serial) = 1) ∧
    (∀ (rc : RunnerConfig) (invoke : Task → String → InvokeResult) (tasks : List Task),
      ∀ p ∈ task_assignments tasks,
        Event.killEmulator p.2 ∈ (run_batch rc true invoke tasks).2) := by
  constructor
  · intro rc task serial res
    unfold run_single_task
    by_cases hm : rc.test_mode <;> cases res <;>
      simp [hm, List.count_cons, List.count_append, List.count_nil]
  · intro rc invoke tasks p hp
    have hshape : (run_batch rc true invoke tasks).2 =
        (((task_assignments tasks).map
          (fun q => run_single_task rc q.1 q.2 (invoke q.1 q.2))).map Prod.snd).flatten ++
          (task_assignments tasks).map (fun q => Event.killEmulator q.2) := rfl
    rw [hshape, List.mem_append]
    exact Or.inr (List.mem_map.mpr ⟨p, hp, rfl⟩)

/-- C1 witness. -/
theorem kill_emulator_exactly_once_witness :
    (run_single_task rcV taskA "emulator-5554" InvokeResult.spawnError).2.count
      (Event.killEmulator "emulator-5554") = 1 ∧
    (taskA, serialForSlot 0) ∈ task_assignments [taskA] ∧
    Event.killEmulator (taskA, serialForSlot 0).2 ∈
      (run_batch rcV true invokeTimeout [taskA]).2 :=
  ⟨kill_emulator_exactly_once.1 rcV taskA "emulator-5554" InvokeResult.spawnError,
   by decide,
   kill_emulator_exactly_once.2 rcV invokeTimeout [taskA] (taskA, serialForSlot 0) (by decide)⟩

theorem serialForSlot_injective : Function.Injective serialForSlot := by
  intro i j h
  unfold serialForSlot at h
  have hd := congrArg String.data h
  rw [String.data_append, String.data_append] at hd
  have hcancel := List.append_cancel_left hd
  have hp := pyNatRepr_data_inj hcancel
  simp only [base_port, port_step] at hp
  omega

theorem map_snd_task_assignments (tasks : List Task) :
    (task_assignments tasks).map Prod.snd = (List.range tasks.length).map serialForSlot := by
  unfold task_assignments
  rw [List.map_map, List.enum_eq_zip_range,
    show Prod.snd ∘ (fun p : Nat × Task => (p.2, serialForSlot p.1)) =
      serialForSlot ∘ Prod.fst from rfl,
    ← List.map_map, List.map_fst_zip _ _ (by simp)]

/-- C2: the pre-computed task-to-serial mapping gives slot `i` the serial
`emulator-(base_port + i*port_step)`, and the serials of a chunk's
assignment are pairwise distinct, so no two concurrently executing tasks
share a resource identifier. -/
theorem assignments_distinct_serials :
    ∀ (tasks : List Task),
      ((task_assignments tasks).map Prod.snd).Nodup ∧
      (∀ (i : Nat), i < tasks.length →
        ((task_assignments tasks).getD i (default, "")).2 =
          "emulator-" ++ pyNatRepr (base_port + i * port_step)) := by
  intro tasks
  constructor
  · rw [map_snd_task_assignments]
    exact (List.nodup_range tasks.length).map serialForSlot_injective
  · intro i hi
    have hlen : i < (task_assignments tasks).length := by
      simpa [task_assignments] using hi
    rw [List.getD_eq_getElem _ _ hlen]
    unfold task_assignments
    rw [List.getElem_map, List.getElem_enum]
    rfl

/-- C2 witness. -/
theorem assignments_distinct_serials_witness :
    ((task_assignments [taskA]).map Prod.snd).Nodup ∧
    ((task_assignments [taskA]).getD 0 (default, "")).2 = "emulator-5554" :=
  ⟨(assignments_distinct_serials [taskA]).1,
   ((assignments_distinct_serials [taskA]).2 0 (by decide)).trans (by decide)⟩

/-- C3: outside test mode, a timed-out invocation yields failure and
deletes the task's output directory, while a non-zero exit or a spawn
exception yields failure without deleting any directory. -/
theorem timeout_deletes_output :
    ∀ (rc : RunnerConfig) (task : Task) (serial : String), rc.test_mode = false →
      ((run_single_task rc task serial InvokeResult.timedOut).1 = false ∧
        Event.removeTree task.out_dir ∈
          (run_single_task rc task serial InvokeResult.timedOut).2) ∧
      (∀ code : Int, code ≠ 0 →
        (run_single_task rc task serial (InvokeResult.completed code)).1 = false ∧
        ∀ d : String, Event.removeTree d ∉
          (run_single_task rc task serial (InvokeResult.completed code)).2) ∧
      ((run_single_task rc task serial InvokeResult.spawnError).1 = false ∧
        ∀ d : String, Event.removeTree d ∉
          (run_single_task rc task serial InvokeResult.spawnError).2) := by
  intro rc task serial hm
  refine ⟨⟨by simp [run_single_task, hm], by simp [run_single_task, hm]⟩,
    fun code hc => ⟨by simp [run_single_task, hm, hc], ?_⟩,
    by simp [run_single_task, hm], ?_⟩
  · intro d
    simp [run_single_task, hm]
  · intro d
    simp [run_single_task, hm]

/-- C3 witness. -/
theorem timeout_deletes_output_witness :
    rcV.test_mode = false ∧
    (run_single_task rcV taskA "emulator-5554" InvokeResult.timedOut).1 = false ∧
    Event.removeTree taskA.out_dir ∈
      (run_single_task rcV taskA "emulator-5554" InvokeResult.timedOut).2 ∧
    (run_single_task rcV taskA "emulator-5554" (InvokeResult.completed 1)).1 = false :=
  ⟨rfl,
   (timeout_deletes_output rcV taskA "emulator-5554" rfl).1.1,
   (timeout_deletes_output rcV taskA "emulator-5554" rfl).1.2,
   ((timeout_deletes_output rcV taskA "emulator-5554" rfl).2.1 1 (by decide)).1⟩

theorem foldl_add_sum {α : Type} (f : α → Nat) (l : List α) (init : Nat) :
    l.foldl (fun acc x => acc + f x) init = init + (l.map f).sum := by
  induction l generalizing init with
  | nil => simp
  | cons a l ih =>
    rw [List.foldl_cons, ih, List.map_cons, List.sum_cons]
    omega

/-- An oracle under which starting a chunk's emulators always fails. -/
def startNever : Nat → Bool := fun _ => false

/-- C7: a failed emulator start makes `run_batch` return zero successes
with an empty trace (no task is started), and the batch loop's total is
the sum over all chunks in order, so a failed chunk contributes zero and
later chunks still run. -/
theorem start_failure_contained :
    ∀ (rc : RunnerConfig) (invoke : Task → String → InvokeResult)
      (startOk : Nat → Bool) (tasks : List Task),
      run_batch rc false invoke tasks = (0, []) ∧
      run_loop rc startOk invoke tasks =
        ((chunksOf rc.max_parallel tasks).enum.map
          (fun p => (run_batch rc (startOk p.1) invoke p.2).1)).sum ∧
      (∀ p, p ∈ (chunksOf rc.max_parallel tasks).enum → startOk p.1 = false →
        (run_batch rc (startOk p.1) invoke p.2).1 = 0 ∧
        (run_batch rc (startOk p.1) invoke p.2).2 = []) := by
  intro rc invoke startOk tasks
  refine ⟨rfl, ?_, ?_⟩
  · unfold run_loop
    simpa using foldl_add_sum (fun p => (run_batch rc (startOk p.1) invoke p.2).1)
      ((chunksOf rc.max_parallel tasks).enum) 0
  · intro p _ hf
    rw [hf]
    exact ⟨rfl, rfl⟩

/-- C7 witness. -/
theorem start_failure_contained_witness :
    run_batch rcV false invokeTimeout [taskA] = (0, []) ∧
    (run_batch rcV (startNever 0) invokeTimeout [taskA]).1 = 0 :=
  ⟨(start_failure_contained rcV invokeTimeout startNever [taskA]).1,
   ((start_failure_contained rcV invokeTimeout startNever [taskA]).2.2
     (0, [taskA]) (by decide) rfl).1⟩

end DroidBot
